import Mathlib

/-!
diet-vinegar: launcher orchestration and configuration loading.

A shallow embedding of

* `src/aubun.go` (`SetupBinary`, `Binary`), namespace `Aubun`;
* `src/config/config.go` (`Default`, `Load`, `Binary.setup`, `Config.setup`),
  namespace `Cfg`.

The two files come from different revisions of the program: `aubun.go` uses
`config.Application`, `config.go` declares `config.Binary`.  Each namespace
models the types its own file uses.

Both files are glue code around collaborators that live in other packages
(`bootstrapper`, `state`, `dirs`, `dxvk`, `wine`, `os`, `log`, `toml`, ...).
Every such collaborator is an oracle field of a `World` record.  An oracle
receives the complete history of the calls made so far, so its answer may
depend on anything that happened before (a file system, a network, a
persisted state file).  Each call is appended to the history together with
its answer; properties of the orchestration are properties of that history.

`log.Fatal` prints and terminates the process: it is the `exit` outcome.
An index out of range is the `panic` outcome.  Go strings are modelled by
`String`, a Go `error` by `Option Err` (`none` is `nil`).
-/

namespace strings

/-- The function `strings.HasPrefix`. -/
def HasPrefix (s pre : String) : Bool := pre.toList.isPrefixOf s.toList

/-- The function `strings.Join`. -/
def Join (elems : List String) (sep : String) : String := sep.intercalate elems

end strings

namespace Aubun

open strings

/-- Text of a Go `error` value. -/
abbrev Err := String

/-- Outcome of running a piece of Go code: it returns normally, the process
exits (`log.Fatal`), or the goroutine panics. -/
inductive Outcome (α : Type) where
  | ret (a : α)
  | exit
  | panic
  deriving DecidableEq, Repr

/-- Modelled from the spec: `bootstrapper.BinaryType`, the flavor of the
application.  The source switches on `Player`, `Studio` and a `default`
branch, so every other value of the underlying integer is `Other`. -/
inductive BinaryType where
  | Player
  | Studio
  | Other (n : Nat)
  deriving DecidableEq, Repr

/-- Modelled from the spec: `bootstrapper.Version` (section 3, "Version"): a
flavor, a channel name and a build identifier.  The field `Typ` is the
source's `Type`. -/
structure Version where
  Typ : BinaryType
  Channel : String
  GUID : String
  deriving DecidableEq, Repr

/-- Modelled from the spec: `bootstrapper.Package` (section 3, "Package"). -/
structure Package where
  Name : String
  Size : Nat
  Zip : Bool
  deriving DecidableEq, Repr

/-- Modelled from the spec: `bootstrapper.Manifest` (section 3, "Manifest"):
a version and its ordered packages. -/
structure Manifest where
  Version : Version
  Packages : List Package
  deriving DecidableEq, Repr

/-- Modelled from the spec: the directory mapping returned by
`BinaryType.Directories` (section 3, "Directory Mapping"): package name to
destination subdirectory. -/
abbrev PackageDirectories := List (String × String)

/-- Modelled from the spec: `wine.Prefix`, identified by its directory. -/
structure WinePfx where
  Dir : String
  deriving DecidableEq, Repr

/-- Modelled from the spec: `config.Application` as `aubun.go` uses it: the
configured channel and the DXVK switch. -/
structure Application where
  Channel : String
  Dxvk : Bool
  deriving DecidableEq, Repr

/-- Modelled from the spec: `config.Config` as `aubun.go` uses it. -/
structure Config where
  Player : Application
  Studio : Application
  deriving DecidableEq, Repr

/-- Result of a call that returns a value and an `error`. -/
inductive Res (α : Type) where
  | ok (a : α)
  | error (e : Err)
  deriving DecidableEq, Repr

/-- The calls `aubun.go` makes into other packages, with their arguments. -/
inductive Call where
  | Mkdir (dir : String)
  | FetchManifest (ver : Version) (dir : String)
  | Download (m : Manifest)
  | Extract (m : Manifest) (dir : String) (dirs : PackageDirectories)
  | SaveManifest (m : Manifest)
  | CleanPackages
  | CleanVersions
  | DxvkInstalled
  | DxvkFetch (dir : String)
  | DxvkExtract (dir : String) (pfx : WinePfx)
  | SaveDxvk (installed : Bool)
  | DxvkSetenv
  | DxvkRemove (pfx : WinePfx)
  | LatestVersion (bin : BinaryType) (channel : String)
  | Stat (name : String)
  | Exec (pfx : WinePfx) (args : List String)
  | Printf (msg : String)
  | Fatal (msg : String)
  deriving DecidableEq, Repr

/-- What a call answered. -/
inductive Reply where
  | error (e : Option Err)
  | manifest (r : Res Manifest)
  | version (r : Res Version)
  | bool (r : Res Bool)
  | unit
  deriving DecidableEq, Repr

/-- One entry of the history: a call and its answer. -/
structure Event where
  call : Call
  reply : Reply
  deriving DecidableEq, Repr

/-- The collaborators of `aubun.go`.  The first fields are process-wide
constants and pure functions; the others answer from the history. -/
structure World where
  Downloads : String
  Versions : String
  Cache : String
  Join : String → String → String
  BinString : BinaryType → String
  Directories : BinaryType → PackageDirectories
  ParsePlayerURI : String → List String × String
  Mkdir : List Event → String → Option Err
  FetchManifest : List Event → Version → String → Res Manifest
  Download : List Event → Manifest → Option Err
  Extract : List Event → Manifest → String → PackageDirectories → Option Err
  SaveManifest : List Event → Manifest → Option Err
  CleanPackages : List Event → Option Err
  CleanVersions : List Event → Option Err
  DxvkInstalled : List Event → Res Bool
  DxvkFetch : List Event → String → Option Err
  DxvkExtract : List Event → String → WinePfx → Option Err
  SaveDxvk : List Event → Bool → Option Err
  DxvkRemove : List Event → WinePfx → Option Err
  LatestVersion : List Event → BinaryType → String → Res Version
  Stat : List Event → String → Option Err
  Exec : List Event → WinePfx → List String → Option Err

/-- A program: from the history so far to an outcome and the extended
history. -/
def Prog (α : Type) : Type := List Event → Outcome α × List Event

/-- Sequencing: the second program runs only when the first returned. -/
def Prog.bind {α β : Type} (p : Prog α) (f : α → Prog β) : Prog β := fun h =>
  match p h with
  | (.ret a, h1) => f a h1
  | (.exit, h1) => (.exit, h1)
  | (.panic, h1) => (.panic, h1)

instance : Monad Prog where
  pure a := fun h => (.ret a, h)
  bind := Prog.bind

/-- An external call returning an `error`. -/
def callErr (c : Call) (f : List Event → Option Err) : Prog (Option Err) := fun h =>
  (.ret (f h), h ++ [⟨c, .error (f h)⟩])

/-- An external call with no result. -/
def callUnit (c : Call) : Prog Unit := fun h => (.ret (), h ++ [⟨c, .unit⟩])

/-- The call `log.Printf`. -/
def Printf (msg : String) : Prog Unit := callUnit (.Printf msg)

/-- The call `log.Fatal`: print, then `os.Exit(1)`. -/
def Fatal {α : Type} (msg : String) : Prog α := fun h =>
  (.exit, h ++ [⟨.Fatal msg, .unit⟩])

/-- An index out of range. -/
def goPanic {α : Type} : Prog α := fun h => (.panic, h)

/-- The statement `if err != nil { log.Fatal(err) }`. -/
def fatalIf (err : Option Err) : Prog Unit :=
  match err with
  | some e => Fatal e
  | none => pure ()

/-- A call returning a value and an `error`, followed by
`if err != nil { log.Fatal(err) }`. -/
def callRes {α : Type} (c : Call) (wrap : Res α → Reply) (f : List Event → Res α) :
    Prog α := fun h =>
  match f h with
  | .ok a => (.ret a, h ++ [⟨c, wrap (f h)⟩])
  | .error e => Fatal e (h ++ [⟨c, wrap (f h)⟩])

/-- The function `SetupBinary` of `aubun.go`. -/
def SetupBinary (w : World) (ver : Version) (dir : String) : Prog Unit := do
  fatalIf (← callErr (.Mkdir dir) (fun h => w.Mkdir h dir))
  fatalIf (← callErr (.Mkdir w.Downloads) (fun h => w.Mkdir h w.Downloads))
  let manifest ← callRes (.FetchManifest ver w.Downloads) .manifest
    (fun h => w.FetchManifest h ver w.Downloads)
  fatalIf (← callErr (.Download manifest) (fun h => w.Download h manifest))
  fatalIf (← callErr (.Extract manifest dir (w.Directories ver.Typ))
    (fun h => w.Extract h manifest dir (w.Directories ver.Typ)))
  fatalIf (← callErr (.SaveManifest manifest) (fun h => w.SaveManifest h manifest))
  fatalIf (← callErr .CleanPackages w.CleanPackages)
  fatalIf (← callErr .CleanVersions w.CleanVersions)

/-- Lines 53-65 of `Binary`: the `switch bin` choosing the application
configuration and the executable.  Both `Player` and `Studio` read
`cfg.Player`, as the source does. -/
def selectApp (bin : BinaryType) (cfg : Config) : Prog (Application × String) :=
  match bin with
  | .Player => pure (cfg.Player, "RobloxPlayerBeta.exe")
  | .Studio => pure (cfg.Player, "RobloxStudioBeta.exe")
  | .Other _ => Fatal "invalid binary type given"

/-- Lines 73-85 of `Binary`: install DXVK when the state says it is missing. -/
def dxvkInstall (w : World) (pfx : WinePfx) (dxvkInstalled : Bool) : Prog Unit :=
  if !dxvkInstalled then do
    fatalIf (← callErr (.DxvkFetch w.Cache) (fun h => w.DxvkFetch h w.Cache))
    fatalIf (← callErr (.DxvkExtract w.Cache pfx) (fun h => w.DxvkExtract h w.Cache pfx))
    fatalIf (← callErr (.SaveDxvk true) (fun h => w.SaveDxvk h true))
  else
    pure ()

/-- Lines 67-96 of `Binary`: the DXVK block. -/
def dxvkStage (w : World) (appCfg : Application) (cfg : Config) (pfx : WinePfx) :
    Prog Unit :=
  if appCfg.Dxvk then do
    let dxvkInstalled ← callRes .DxvkInstalled .bool w.DxvkInstalled
    dxvkInstall w pfx dxvkInstalled
    callUnit .DxvkSetenv
  else if !cfg.Player.Dxvk && !cfg.Studio.Dxvk then do
    fatalIf (← callErr (.DxvkRemove pfx) (fun h => w.DxvkRemove h pfx))
    fatalIf (← callErr (.SaveDxvk false) (fun h => w.SaveDxvk h false))
  else
    pure ()

/-- Lines 98-101 of `Binary`: a launch URI replaces the argument vector and
proposes a channel.  `args[0]` on an empty vector would panic. -/
def parseStage (w : World) (appCfg : Application) (args : List String) :
    Prog (List String × String) :=
  if HasPrefix (Join args " ") "roblox-player:1" then
    match args with
    | [] => goPanic
    | a :: _ => pure (w.ParsePlayerURI a)
  else
    pure (args, appCfg.Channel)

/-- Lines 103-106 of `Binary`: a channel other than the configured one is
reported and replaced by the configured one. -/
def forceChannel (appCfg : Application) (channel : String) : Prog String :=
  if channel != appCfg.Channel then do
    Printf ("WARNING: Launch URI has a different channel: " ++ channel ++
      ", forcing user-specified channel")
    pure appCfg.Channel
  else
    pure channel

/-- Lines 112-128 of `Binary`: everything after the version is resolved.
The install pipeline runs when `os.Stat` of the marker file returns an
error; then the executable of the version directory is launched. -/
def launchStage (w : World) (bin : BinaryType) (pfx : WinePfx) (exe : String)
    (args : List String) (ver : Version) : Prog Unit := do
  let verDir := w.Join w.Versions ver.GUID
  let err ← callErr (.Stat (w.Join verDir "AppSettings.xml"))
    (fun h => w.Stat h (w.Join verDir "AppSettings.xml"))
  (match err with
    | some _ => do
      Printf ("Updating/Installing " ++ w.BinString bin)
      SetupBinary w ver verDir
    | none =>
      Printf (w.BinString bin ++ " is up to date (" ++ ver.GUID ++ ")"))
  Printf ("Launching " ++ w.BinString bin)
  let args := w.Join verDir exe :: args
  fatalIf (← callErr (.Exec pfx args) (fun h => w.Exec h pfx args))

/-- The function `Binary` of `aubun.go`. -/
def Binary (w : World) (bin : BinaryType) (cfg : Config) (pfx : WinePfx)
    (args : List String) : Prog Unit := do
  let (appCfg, exe) ← selectApp bin cfg
  dxvkStage w appCfg cfg pfx
  let (args, channel) ← parseStage w appCfg args
  let channel ← forceChannel appCfg channel
  let ver ← callRes (.LatestVersion bin channel) .version
    (fun h => w.LatestVersion h bin channel)
  launchStage w bin pfx exe args ver

/-- The events a program appends to the history `h`. -/
def emitted {α : Type} (p : Prog α) (h : List Event) : List Event :=
  (p h).2.drop h.length

/-- The empty world: every call succeeds, nothing is installed, no marker
file can be stat'ed. -/
def quietWorld : World where
  Downloads := "/cache/downloads"
  Versions := "/data/versions"
  Cache := "/cache"
  Join := fun a b => a ++ "/" ++ b
  BinString := fun b => match b with
    | .Player => "Player"
    | .Studio => "Studio"
    | .Other _ => "unknown"
  Directories := fun _ => []
  ParsePlayerURI := fun _ => (["--app"], "beta")
  Mkdir := fun _ _ => none
  FetchManifest := fun _ v _ => .ok ⟨v, []⟩
  Download := fun _ _ => none
  Extract := fun _ _ _ _ => none
  SaveManifest := fun _ _ => none
  CleanPackages := fun _ => none
  CleanVersions := fun _ => none
  DxvkInstalled := fun _ => .ok true
  DxvkFetch := fun _ _ => none
  DxvkExtract := fun _ _ _ => none
  SaveDxvk := fun _ _ => none
  DxvkRemove := fun _ _ => none
  LatestVersion := fun _ b c => .ok ⟨b, c, "version-1"⟩
  Stat := fun _ _ => some "stat: no such file or directory"
  Exec := fun _ _ _ => none

/-- The world of `quietWorld` where the marker file of every version can be
stat'ed. -/
def installedWorld : World := { quietWorld with Stat := fun _ _ => none }

/-- A configuration on the channel `live`, without DXVK. -/
def liveCfg : Config := ⟨⟨"live", false⟩, ⟨"live", false⟩⟩

/-- Whether a reply reports an error. -/
def Reply.failed : Reply → Bool
  | .error (some _) => true
  | .manifest (.error _) => true
  | .version (.error _) => true
  | .bool (.error _) => true
  | _ => false

/-- Whether the call of an event returned an error. -/
def Event.failed (e : Event) : Bool := e.reply.failed

/-- Calls into the `log` package. -/
def Call.isLog : Call → Bool
  | .Printf _ => true
  | .Fatal _ => true
  | _ => false

/-- Calls to `bootstrapper.LatestVersion`. -/
def Call.isLatestVersion : Call → Bool
  | .LatestVersion _ _ => true
  | _ => false

/-- The calls of the install pipeline `SetupBinary`: directory creation,
manifest fetch, download, extraction, state save, garbage collection. -/
def Call.isInstall : Call → Bool
  | .Mkdir _ => true
  | .FetchManifest _ _ => true
  | .Download _ => true
  | .Extract _ _ _ => true
  | .SaveManifest _ => true
  | .CleanPackages => true
  | .CleanVersions => true
  | _ => false

/-- The steps of a trace: its events other than log output. -/
def steps (t : List Event) : List Event := t.filter (fun e => !e.call.isLog)

/-- The fixed order of the steps of `SetupBinary`, with their arguments;
`m` is the manifest that `FetchManifest` returned. -/
def plan (w : World) (ver : Version) (dir : String) (m : Manifest) : List Call :=
  [.Mkdir dir, .Mkdir w.Downloads, .FetchManifest ver w.Downloads, .Download m,
   .Extract m dir (w.Directories ver.Typ), .SaveManifest m, .CleanPackages, .CleanVersions]

/-- The steps of `SetupBinary`, each answered without error. -/
def okEvents (w : World) (ver : Version) (dir : String) (m : Manifest) : List Event :=
  [⟨.Mkdir dir, .error none⟩, ⟨.Mkdir w.Downloads, .error none⟩,
   ⟨.FetchManifest ver w.Downloads, .manifest (.ok m)⟩, ⟨.Download m, .error none⟩,
   ⟨.Extract m dir (w.Directories ver.Typ), .error none⟩, ⟨.SaveManifest m, .error none⟩,
   ⟨.CleanPackages, .error none⟩, ⟨.CleanVersions, .error none⟩]

/-- The steps of `SetupBinary`, each answered with the error `e`. -/
def failEvents (w : World) (ver : Version) (dir : String) (m : Manifest) (e : Err) :
    List Event :=
  [⟨.Mkdir dir, .error (some e)⟩, ⟨.Mkdir w.Downloads, .error (some e)⟩,
   ⟨.FetchManifest ver w.Downloads, .manifest (.error e)⟩, ⟨.Download m, .error (some e)⟩,
   ⟨.Extract m dir (w.Directories ver.Typ), .error (some e)⟩,
   ⟨.SaveManifest m, .error (some e)⟩,
   ⟨.CleanPackages, .error (some e)⟩, ⟨.CleanVersions, .error (some e)⟩]

/-- The log output of lines 103-106 of `Binary` for the proposed channel
`ch`: one warning when `ch` differs from the configured channel. -/
def warning (a : Application) (ch : String) : List Event :=
  if ch != a.Channel then
    [⟨.Printf ("WARNING: Launch URI has a different channel: " ++ ch ++
      ", forcing user-specified channel"), .unit⟩]
  else []

/-- The `log.Fatal` that follows a failed call. -/
def fatalTail (r : Option Err) : List Event :=
  match r with
  | some e => [⟨.Fatal e, .unit⟩]
  | none => []

/-- A program is `Sound` for `Q` when, from every history, it only appends
events, each of them satisfying `Q`, and does not panic. -/
structure Sound (Q : Event → Prop) {α : Type} (p : Prog α) : Prop where
  run : ∀ h, ∃ t, (p h).2 = h ++ t ∧ (p h).1 ≠ .panic ∧ ∀ ev ∈ t, Q ev

end Aubun

namespace Cfg

open strings

/-- A Go `error` value: made by `errors.New`, or by `fmt.Errorf` with `%w`
around another error. -/
inductive Error where
  | new (msg : String)
  | wrap (msg : String) (inner : Error)
  deriving DecidableEq, Repr

/-- The method `Error()` of an error, its message (named `message` here). -/
def Error.message : Error → String
  | .new msg => msg
  | .wrap msg _ => msg

/-- The call `fmt.Errorf(label + "%w", err)`. -/
def Errorf (label : String) (err : Error) : Error := .wrap (label ++ err.message) err

/-- The error `ErrNeedDXVKRenderer`. -/
def ErrNeedDXVKRenderer : Error := .new "dxvk is only valid with d3d renderers"

/-- The error `ErrWineRootAbs`. -/
def ErrWineRootAbs : Error := .new "wine root path is not an absolute path"

/-- The error `ErrWineRootInvalid`. -/
def ErrWineRootInvalid : Error := .new "no wine binary present in wine root"

/-- Modelled from the spec: a value of the `roblox.FFlags` map
(`map[string]interface{}`); the type is declared outside `src/`. -/
inductive FFlagValue where
  | int (n : Int)
  | str (s : String)
  | bool (b : Bool)
  deriving DecidableEq, Repr

/-- Modelled from the spec: `roblox.FFlags`, a map from flag name to value,
kept as an association list in insertion order. -/
abbrev FFlags := List (String × FFlagValue)

/-- Modelled from the spec: `config.Environment`, a map from variable name to
value (`map[string]string`), kept as an association list. -/
abbrev Environment := List (String × String)

/-- The assignment `env[key] = value` on a map. -/
def Environment.set (env : Environment) (key value : String) : Environment :=
  if env.any (fun kv => kv.1 == key) then
    env.map (fun kv => if kv.1 == key then (key, value) else kv)
  else
    env ++ [(key, value)]

/-- Modelled from the spec: `splash.Config` with the fields `Default`
fills in; the type is declared outside `src/`. -/
structure SplashConfig where
  Enabled : Bool
  LogoPath : String
  BgColor : Nat
  FgColor : Nat
  CancelColor : Nat
  TrackColor : Nat
  AccentColor : Nat
  InfoColor : Nat
  deriving DecidableEq, Repr

/-- The struct `Binary` of `config.go`. -/
structure Binary where
  Channel : String
  Launcher : String
  Renderer : String
  DiscordRPC : Bool
  ForcedVersion : String
  Dxvk : Bool
  FFlags : FFlags
  Env : Environment
  ForcedGpu : String
  GameMode : Bool
  deriving DecidableEq, Repr

/-- The struct `Config` of `config.go`. -/
structure Config where
  WineRoot : String
  DxvkVersion : String
  MultipleInstances : Bool
  SanitizeEnv : Bool
  Player : Binary
  Studio : Binary
  Env : Environment
  Splash : SplashConfig
  deriving DecidableEq, Repr

/-- Result of `os.Stat` as `Load` looks at it: no error, an error for which
`errors.Is(err, os.ErrNotExist)` holds, or another error. -/
inductive StatResult where
  | ok
  | notExist
  | other (e : Error)
  deriving DecidableEq, Repr

/-- The calls `config.go` makes outside the file, with their arguments. -/
inductive Call where
  | Stat (name : String)
  | DecodeFile (name : String) (cfg : Config)
  | SanitizeEnv
  | Getenv (key : String)
  | Unsetenv (key : String)
  | Setenv (env : Environment)
  | WineLook
  | SetRenderer (flags : FFlags) (renderer : String)
  | LookPath (file : String)
  | pickCard (b : Binary)
  deriving DecidableEq, Repr

/-- What a call answered. -/
inductive Reply where
  | stat (r : StatResult)
  | config (c : Config) (err : Option Error)
  | flags (f : FFlags) (err : Option Error)
  | binary (b : Binary) (err : Option Error)
  | path (p : String) (err : Option Error)
  | str (s : String)
  | bool (b : Bool)
  | unit
  deriving DecidableEq, Repr

/-- One entry of the history: a call and its answer. -/
structure Event where
  call : Call
  reply : Reply
  deriving DecidableEq, Repr

/-- The collaborators of `config.go`.  `LogoPath` is set at build time,
`DefaultChannel` is `bootstrapper.DefaultChannel`; `Join`, `IsAbs`
(`path/filepath`), `Fields` (`strings`) and `SetRenderer` (`roblox.FFlags`,
which updates the map and returns an error) are pure; the others answer from
the history.  `DecodeFile` and `pickCard` return the value their pointer
argument holds afterwards. -/
structure World where
  LogoPath : String
  DefaultChannel : String
  Join : String → String → String
  IsAbs : String → Bool
  Fields : String → List String
  SetRenderer : FFlags → String → FFlags × Option Error
  Stat : List Event → String → StatResult
  DecodeFile : List Event → String → Config → Config × Option Error
  Getenv : List Event → String → String
  WineLook : List Event → Bool
  LookPath : List Event → String → String × Option Error
  pickCard : List Event → Binary → Binary × Option Error

/-- Outcome of running a piece of `config.go`: it returns, or it panics on an
index out of range. -/
inductive Outcome (α : Type) where
  | ret (a : α)
  | panic
  deriving DecidableEq, Repr

/-- A program: from the history so far to an outcome and the extended
history. -/
def Prog (α : Type) : Type := List Event → Outcome α × List Event

/-- Sequencing: the second program runs only when the first returned. -/
def Prog.bind {α β : Type} (p : Prog α) (f : α → Prog β) : Prog β := fun h =>
  match p h with
  | (.ret a, h1) => f a h1
  | (.panic, h1) => (.panic, h1)

instance : Monad Prog where
  pure a := fun h => (.ret a, h)
  bind := Prog.bind

/-- An external call: ask the world, record call and answer. -/
def call {α : Type} (c : Call) (wrap : α → Reply) (f : List Event → α) : Prog α :=
  fun h => (.ret (f h), h ++ [⟨c, wrap (f h)⟩])

/-- An index out of range. -/
def goPanic {α : Type} : Prog α := fun h => (.panic, h)

/-- The events a program appends to the history `h`. -/
def emitted {α : Type} (p : Prog α) (h : List Event) : List Event :=
  (p h).2.drop h.length

/-- The function `Default` of `config.go`.  Fields the literal leaves out
hold their zero value. -/
def Default (w : World) : Config where
  WineRoot := ""
  DxvkVersion := "2.3"
  MultipleInstances := false
  SanitizeEnv := false
  Env := [
    ("WINEARCH", "win64"),
    ("WINEDEBUG", "err-kerberos,err-ntlm"),
    ("WINEESYNC", "1"),
    ("WINEDLLOVERRIDES", "dxdiagn,winemenubuilder.exe,mscoree,mshtml="),
    ("DXVK_LOG_LEVEL", "warn"),
    ("DXVK_LOG_PATH", "none"),
    ("MESA_GL_VERSION_OVERRIDE", "4.4"),
    ("__GL_THREADED_OPTIMIZATIONS", "1")]
  Player := {
    Dxvk := true
    GameMode := true
    ForcedGpu := "prime-discrete"
    Renderer := "D3D11"
    Channel := w.DefaultChannel
    DiscordRPC := true
    FFlags := [("DFIntTaskSchedulerTargetFps", .int 640)]
    Env := [("OBS_VKCAPTURE", "1")]
    Launcher := ""
    ForcedVersion := "" }
  Studio := {
    Dxvk := true
    GameMode := true
    Channel := w.DefaultChannel
    ForcedGpu := "prime-discrete"
    Renderer := "D3D11"
    FFlags := []
    Env := []
    Launcher := ""
    DiscordRPC := false
    ForcedVersion := "" }
  Splash := {
    Enabled := true
    LogoPath := w.LogoPath
    BgColor := 0x242424
    FgColor := 0xfafafa
    CancelColor := 0xbc3c3c
    TrackColor := 0x2b002e
    AccentColor := 0xbc5eb3
    InfoColor := 0x777777 }

/-- The method `Binary.LauncherPath`:
`exec.LookPath(strings.Fields(b.Launcher)[0])`. -/
def Binary.LauncherPath (w : World) (b : Binary) : Prog (String × Option Error) :=
  match w.Fields b.Launcher with
  | [] => goPanic
  | file :: _ => call (.LookPath file) (fun r => .path r.1 r.2) (fun h => w.LookPath h file)

/-- Lines 146-152 of `Binary.setup`: the launcher lookup and the card
selection. -/
def Binary.finish (w : World) (b : Binary) : Prog (Binary × Option Error) := do
  let err ← (if b.Launcher != "" then do
      let r ← Binary.LauncherPath w b
      pure r.2
    else pure none : Prog (Option Error))
  match err with
  | some e => pure (b, some e)
  | none => call (.pickCard b) (fun r => .binary r.1 r.2) (fun h => w.pickCard h b)

/-- The method `Binary.setup` of `config.go`.  The receiver is a pointer: the
result holds the binary as the call leaves it, and the error. -/
def Binary.setup (w : World) (b : Binary) : Prog (Binary × Option Error) := do
  let r ← call (.SetRenderer b.FFlags b.Renderer) (fun r => .flags r.1 r.2)
    (fun _ => w.SetRenderer b.FFlags b.Renderer)
  let b := { b with FFlags := r.1 }
  match r.2 with
  | some e => pure (b, some e)
  | none =>
    if !HasPrefix b.Renderer "D3D11" && b.Dxvk then
      pure (b, some ErrNeedDXVKRenderer)
    else
      Binary.finish w b

/-- Lines 156-176 of `Config.setup`: environment sanitizing, the wine root
checks and the export of the environment. -/
def Config.prepare (w : World) (c : Config) : Prog (Config × Option Error) := do
  (if c.SanitizeEnv then call .SanitizeEnv (fun _ => .unit) (fun _ => ())
    else pure () : Prog Unit)
  let r ← (if c.WineRoot != "" then
      (if !w.IsAbs c.WineRoot then
        pure (c, some ErrWineRootAbs)
      else do
        let path ← call (.Getenv "PATH") .str (fun h => w.Getenv h "PATH")
        let c := { c with Env := c.Env.set "PATH" (w.Join c.WineRoot "bin" ++ ":" ++ path) }
        call (.Unsetenv "WINEDLLPATH") (fun _ => .unit) (fun _ => ())
        pure (c, none))
    else pure (c, none) : Prog (Config × Option Error))
  match r.2 with
  | some e => pure (r.1, some e)
  | none =>
    call (.Setenv r.1.Env) (fun _ => .unit) (fun _ => ())
    if r.1.WineRoot != "" then do
      let found ← call .WineLook .bool w.WineLook
      if !found then pure (r.1, some ErrWineRootInvalid) else pure (r.1, none)
    else pure (r.1, none)

/-- The method `Config.setup` of `config.go`. -/
def Config.setup (w : World) (c : Config) : Prog (Config × Option Error) := do
  let r ← Config.prepare w c
  match r.2 with
  | some e => pure (r.1, some e)
  | none =>
    let p ← Binary.setup w r.1.Player
    let c := { r.1 with Player := p.1 }
    match p.2 with
    | some e => pure (c, some (Errorf "player: " e))
    | none =>
      let s ← Binary.setup w c.Studio
      let c := { c with Studio := s.1 }
      match s.2 with
      | some e => pure (c, some (Errorf "studio: " e))
      | none => pure (c, none)

/-- The function `Load` of `config.go`. -/
def Load (w : World) (name : String) : Prog (Config × Option Error) := do
  let cfg := Default w
  let st ← call (.Stat name) .stat (fun h => w.Stat h name)
  match st with
  | .notExist => pure (cfg, none)
  | _ =>
    let r ← call (.DecodeFile name cfg) (fun r => .config r.1 r.2)
      (fun h => w.DecodeFile h name cfg)
    match r.2 with
    | some e => pure (r.1, some e)
    | none => Config.setup w r.1

/-- Calls made by `Config.setup` and the routines below it: every call other
than `os.Stat` and `toml.DecodeFile`. -/
def Call.isSetup : Call → Bool
  | .Stat _ => false
  | .DecodeFile _ _ => false
  | _ => true

/-- A world with no configuration file: `os.Stat` reports that the file does
not exist.  `SetRenderer` accepts the renderers `D3D11` and `Vulkan` and
records the choice as a flag. -/
def bareWorld : World where
  LogoPath := "/usr/share/icons/vinegar.svg"
  DefaultChannel := "LIVE"
  Join := fun a b => a ++ "/" ++ b
  IsAbs := fun p => HasPrefix p "/"
  Fields := fun s => if s = "" then [] else [s]
  SetRenderer := fun f r =>
    if r = "D3D11" ∨ r = "Vulkan" then (f ++ [("FFlagDebugGraphicsPrefer" ++ r, .bool true)], none)
    else (f, some (.new "fflags: invalid renderer given"))
  Stat := fun _ _ => .notExist
  DecodeFile := fun _ _ c => (c, none)
  Getenv := fun _ _ => "/usr/bin"
  WineLook := fun _ => true
  LookPath := fun _ f => ("/usr/bin/" ++ f, none)
  pickCard := fun _ b => (b, none)

/-- The world of `bareWorld` with a configuration file that asks for the
`Vulkan` renderer for the player and leaves DXVK enabled. -/
def vulkanWorld : World :=
  { bareWorld with
    Stat := fun _ _ => .ok
    DecodeFile := fun _ _ c => ({ c with Player := { c.Player with Renderer := "Vulkan" } }, none) }

/-- The world of `bareWorld` asked for `/etc/passwd/config.toml`: the file
does not exist, because `/etc/passwd` is a regular file.  `os.Stat` fails with
ENOTDIR, an error for which `errors.Is(err, os.ErrNotExist)` is false, and
`toml.DecodeFile` fails to open the file and leaves the configuration as it
was. -/
def notDirWorld : World :=
  { bareWorld with
    Stat := fun _ name => .other (.new ("stat " ++ name ++ ": not a directory"))
    DecodeFile := fun _ name c => (c, some (.new ("open " ++ name ++ ": not a directory"))) }

end Cfg

namespace Aubun

open strings

/-! ## `SetupBinary` -/

/-- A decomposition `l = pre ++ x :: post` is determined by the position of
`x` in `l`. -/
theorem split_at_index {α : Type} {l pre post : List α} {x : α}
    (hl : l = pre ++ x :: post) :
    ∃ i, i < l.length ∧ pre = l.take i ∧ l[i]? = some x ∧ post = l.drop (i + 1) := by
  subst hl
  refine ⟨pre.length, by simp, by simp, ?_, by simp⟩
  rw [List.getElem?_append_right (le_refl _)]
  simp

/-- Every run of `SetupBinary` has one of nine shapes: all eight steps
succeed and it returns, or the steps before step `k` succeed, step `k`
fails with `e`, and `log.Fatal e` ends the process. -/
theorem SetupBinary_run (w : World) (ver : Version) (dir : String) (h : List Event) :
    (∃ m, SetupBinary w ver dir h = (.ret (), h ++ okEvents w ver dir m)) ∨
    (∃ m k e, k < 8 ∧ SetupBinary w ver dir h =
      (.exit, h ++ ((okEvents w ver dir m).take k ++
        ((failEvents w ver dir m e).drop k).take 1 ++ [⟨.Fatal e, .unit⟩]))) := by
  unfold SetupBinary
  simp only [bind, Prog.bind, callErr, callRes, Fatal, pure, fatalIf]
  cases h1 : w.Mkdir h dir with
  | some e =>
    refine Or.inr ⟨⟨ver, []⟩, 0, e, by decide, ?_⟩
    simp [okEvents, failEvents, Fatal]
  | none =>
    simp only []
    cases h2 : w.Mkdir (h ++ [⟨.Mkdir dir, .error none⟩]) w.Downloads with
    | some e =>
      refine Or.inr ⟨⟨ver, []⟩, 1, e, by decide, ?_⟩
      simp [okEvents, failEvents, Fatal]
    | none =>
      simp only []
      cases h3 : w.FetchManifest (h ++ [⟨.Mkdir dir, .error none⟩] ++
          [⟨.Mkdir w.Downloads, .error none⟩]) ver w.Downloads with
      | error e =>
        refine Or.inr ⟨⟨ver, []⟩, 2, e, by decide, ?_⟩
        simp [okEvents, failEvents, Fatal]
      | ok m =>
        simp only []
        cases h4 : w.Download (h ++ [⟨.Mkdir dir, .error none⟩] ++
          [⟨.Mkdir w.Downloads, .error none⟩] ++
          [⟨.FetchManifest ver w.Downloads, .manifest (.ok m)⟩]) m with
        | some e =>
          refine Or.inr ⟨m, 3, e, by decide, ?_⟩
          simp [okEvents, failEvents, Fatal]
        | none =>
          simp only []
          cases h5 : w.Extract (h ++ [⟨.Mkdir dir, .error none⟩] ++
            [⟨.Mkdir w.Downloads, .error none⟩] ++
            [⟨.FetchManifest ver w.Downloads, .manifest (.ok m)⟩] ++
            [⟨.Download m, .error none⟩]) m dir (w.Directories ver.Typ) with
          | some e =>
            refine Or.inr ⟨m, 4, e, by decide, ?_⟩
            simp [okEvents, failEvents, Fatal]
          | none =>
            simp only []
            cases h6 : w.SaveManifest (h ++ [⟨.Mkdir dir, .error none⟩] ++
              [⟨.Mkdir w.Downloads, .error none⟩] ++
              [⟨.FetchManifest ver w.Downloads, .manifest (.ok m)⟩] ++
              [⟨.Download m, .error none⟩] ++
              [⟨.Extract m dir (w.Directories ver.Typ), .error none⟩]) m with
            | some e =>
              refine Or.inr ⟨m, 5, e, by decide, ?_⟩
              simp [okEvents, failEvents, Fatal]
            | none =>
              simp only []
              cases h7 : w.CleanPackages (h ++ [⟨.Mkdir dir, .error none⟩] ++
                [⟨.Mkdir w.Downloads, .error none⟩] ++
                [⟨.FetchManifest ver w.Downloads, .manifest (.ok m)⟩] ++
                [⟨.Download m, .error none⟩] ++
                [⟨.Extract m dir (w.Directories ver.Typ), .error none⟩] ++
                [⟨.SaveManifest m, .error none⟩]) with
              | some e =>
                refine Or.inr ⟨m, 6, e, by decide, ?_⟩
                simp [okEvents, failEvents, Fatal]
              | none =>
                simp only []
                cases h8 : w.CleanVersions (h ++ [⟨.Mkdir dir, .error none⟩] ++
                  [⟨.Mkdir w.Downloads, .error none⟩] ++
                  [⟨.FetchManifest ver w.Downloads, .manifest (.ok m)⟩] ++
                  [⟨.Download m, .error none⟩] ++
                  [⟨.Extract m dir (w.Directories ver.Typ), .error none⟩] ++
                  [⟨.SaveManifest m, .error none⟩] ++ [⟨.CleanPackages, .error none⟩]) with
                | some e =>
                  refine Or.inr ⟨m, 7, e, by decide, ?_⟩
                  simp [okEvents, failEvents, Fatal]
                | none =>
                  refine Or.inl ⟨m, ?_⟩
                  simp [okEvents]

/-- A program whose final history is `h ++ t` emitted `t`. -/
theorem emitted_of_run {α : Type} (p : Prog α) (h t : List Event) (o : Outcome α)
    (hr : p h = (o, h ++ t)) : emitted p h = t := by
  simp [emitted, hr]

/-- Claim C2. In `SetupBinary` the history is only extended, and the steps
executed (the emitted events other than log output) are a prefix of the fixed
order `plan`: Mkdir(dir), Mkdir(Downloads), FetchManifest, Download, Extract,
SaveManifest, CleanPackages, CleanVersions.  No step is executed more often
than it occurs in the plan (no retry).  Every step before the last one
succeeded; when all steps succeeded the whole plan was executed and
`SetupBinary` returns; a failed step is the last step and the process exits.
A `SaveManifest` call is preceded by a `FetchManifest` that returned the saved
manifest and by a `Download` and an `Extract` of it that returned no error. -/
theorem SetupBinary_steps_prefix_of_plan (w : World) (ver : Version) (dir : String)
    (h : List Event) :
    (SetupBinary w ver dir h).2 = h ++ emitted (SetupBinary w ver dir) h ∧
    ∃ m,
      (steps (emitted (SetupBinary w ver dir) h)).map Event.call <+: plan w ver dir m ∧
      (∀ c, ((steps (emitted (SetupBinary w ver dir) h)).map Event.call).count c ≤
        (plan w ver dir m).count c) ∧
      (∀ e ∈ (steps (emitted (SetupBinary w ver dir) h)).dropLast, e.failed = false) ∧
      ((∀ e ∈ steps (emitted (SetupBinary w ver dir) h), e.failed = false) →
        (steps (emitted (SetupBinary w ver dir) h)).map Event.call = plan w ver dir m ∧
        (SetupBinary w ver dir h).1 = .ret ()) ∧
      (∀ e ∈ steps (emitted (SetupBinary w ver dir) h), e.failed = true →
        (SetupBinary w ver dir h).1 = .exit ∧
        (steps (emitted (SetupBinary w ver dir) h)).getLast? = some e) ∧
      (∀ pre post m1 r, emitted (SetupBinary w ver dir) h = pre ++ ⟨.SaveManifest m1, r⟩ :: post →
        ⟨.FetchManifest ver w.Downloads, .manifest (.ok m1)⟩ ∈ pre ∧
        ⟨.Download m1, .error none⟩ ∈ pre ∧
        ⟨.Extract m1 dir (w.Directories ver.Typ), .error none⟩ ∈ pre) := by
  rcases SetupBinary_run w ver dir h with ⟨m, hr⟩ | ⟨m, k, e, hk, hr⟩
  · have ht := emitted_of_run _ _ _ _ hr
    rw [ht, hr]
    refine ⟨rfl, m, ?_, ?_, ?_, ?_, ?_, ?_⟩
    · simp [steps, okEvents, plan, Call.isLog]
    · intro c; simp [steps, okEvents, plan, Call.isLog]
    · simp [steps, okEvents, Call.isLog, Event.failed, Reply.failed]
    · intro _; simp [steps, okEvents, plan, Call.isLog]
    · simp [steps, okEvents, Call.isLog, Event.failed, Reply.failed]
    · intro pre post m1 r hsplit
      simp [okEvents, List.append_eq_cons_iff, List.cons_eq_append_iff] at hsplit
      aesop
  · have ht := emitted_of_run _ _ _ _ hr
    rw [ht, hr]
    refine ⟨rfl, m, ?_, ?_, ?_, ?_, ?_, ?_⟩
    · interval_cases k <;> simp [steps, okEvents, failEvents, plan, Call.isLog, List.IsPrefix]
    · intro c
      have hp : (steps (List.take k (okEvents w ver dir m) ++
          List.take 1 (List.drop k (failEvents w ver dir m e)) ++
          [⟨.Fatal e, .unit⟩])).map Event.call <+: plan w ver dir m := by
        interval_cases k <;> simp [steps, okEvents, failEvents, plan, Call.isLog, List.IsPrefix]
      exact hp.sublist.count_le c
    · interval_cases k <;>
        simp [steps, okEvents, failEvents, Call.isLog, Event.failed, Reply.failed]
    · intro hall
      exfalso
      interval_cases k <;>
        simp [steps, okEvents, failEvents, Call.isLog, Event.failed, Reply.failed] at hall
    · interval_cases k <;>
        simp [steps, okEvents, failEvents, Call.isLog, Event.failed, Reply.failed]
    · intro pre post m1 r hsplit
      interval_cases k <;>
        simp [okEvents, failEvents, List.append_eq_cons_iff, List.cons_eq_append_iff] at hsplit <;>
        aesop

/-- Claim C3. In every execution of `SetupBinary`, a call of `CleanPackages`
or `CleanVersions` comes after a `SaveManifest` call that returned no error,
made for the manifest that `FetchManifest` returned in this execution.  No
garbage-collection call precedes the `SaveManifest` call, and when
`SaveManifest` returned an error no garbage-collection call follows it. -/
theorem SetupBinary_clean_only_after_save (w : World) (ver : Version) (dir : String)
    (h : List Event) :
    (∀ pre post ev, emitted (SetupBinary w ver dir) h = pre ++ ev :: post →
      (ev.call = .CleanPackages ∨ ev.call = .CleanVersions) →
      ∃ m, ⟨.FetchManifest ver w.Downloads, .manifest (.ok m)⟩ ∈ pre ∧
        ⟨.SaveManifest m, .error none⟩ ∈ pre) ∧
    (∀ pre post m r, emitted (SetupBinary w ver dir) h = pre ++ ⟨.SaveManifest m, r⟩ :: post →
      (∀ ev ∈ pre, ev.call ≠ .CleanPackages ∧ ev.call ≠ .CleanVersions) ∧
      (r ≠ .error none → ∀ ev ∈ post, ev.call ≠ .CleanPackages ∧ ev.call ≠ .CleanVersions)) := by
  rcases SetupBinary_run w ver dir h with ⟨m, hr⟩ | ⟨m, k, e, hk, hr⟩
  · have ht := emitted_of_run _ _ _ _ hr
    rw [ht]
    constructor
    · intro pre post ev hsplit hev
      obtain ⟨i, hi, rfl, hx, rfl⟩ := split_at_index hsplit
      simp [okEvents] at hi
      interval_cases i <;> simp [okEvents] at hx <;> subst hx <;> simp [okEvents] at hev ⊢
    · intro pre post m1 r hsplit
      obtain ⟨i, hi, rfl, hx, rfl⟩ := split_at_index hsplit
      simp [okEvents] at hi
      interval_cases i <;> simp [okEvents] at hx ⊢
      simp [hx]
  · have ht := emitted_of_run _ _ _ _ hr
    rw [ht]
    constructor
    · intro pre post ev hsplit hev
      obtain ⟨i, hi, rfl, hx, rfl⟩ := split_at_index hsplit
      interval_cases k <;> simp [okEvents, failEvents] at hi <;>
        interval_cases i <;> simp [okEvents, failEvents] at hx <;> subst hx <;>
        simp [okEvents, failEvents] at hev ⊢
    · intro pre post m1 r hsplit
      obtain ⟨i, hi, rfl, hx, rfl⟩ := split_at_index hsplit
      interval_cases k <;> simp [okEvents, failEvents] at hi <;>
        interval_cases i <;> simp [okEvents, failEvents] at hx ⊢ <;> exact hx.2.symm

/-! ## Composition rules for `Sound` -/

/-- Returning a value emits nothing. -/
theorem Sound.pure {Q : Event → Prop} {α : Type} (a : α) : Sound Q (pure a : Prog α) :=
  ⟨fun h => ⟨[], by simp [Pure.pure], by simp [Pure.pure], by simp⟩⟩

/-- Sequencing keeps soundness: the events of both parts satisfy `Q`. -/
theorem Sound.bind {Q : Event → Prop} {α β : Type} {p : Prog α} {f : α → Prog β}
    (hp : Sound Q p) (hf : ∀ a, Sound Q (f a)) : Sound Q (p >>= f) := by
  constructor
  intro h
  obtain ⟨t, ht, hnp, hq⟩ := hp.run h
  simp only [Bind.bind, Prog.bind]
  rcases hph : p h with ⟨o, h1⟩
  rw [hph] at ht hnp
  simp only at ht hnp
  subst ht
  cases o with
  | ret a =>
    obtain ⟨t2, ht2, hnp2, hq2⟩ := (hf a).run (h ++ t)
    refine ⟨t ++ t2, by simp [ht2], by simpa using hnp2, ?_⟩
    intro ev hev
    rcases List.mem_append.mp hev with hm | hm
    · exact hq ev hm
    · exact hq2 ev hm
  | exit => exact ⟨t, rfl, by simp, hq⟩
  | panic => exact absurd rfl hnp

/-- A call returning an `error` is sound when its event satisfies `Q` for
every answer. -/
theorem Sound.callErr {Q : Event → Prop} (c : Call) (f : List Event → Option Err)
    (hQ : ∀ r, Q ⟨c, .error r⟩) : Sound Q (callErr c f) :=
  ⟨fun h => ⟨[⟨c, .error (f h)⟩], rfl, by simp [Aubun.callErr], by simpa using hQ (f h)⟩⟩

/-- A call with no result is sound when its event satisfies `Q`. -/
theorem Sound.callUnit {Q : Event → Prop} (c : Call) (hQ : Q ⟨c, .unit⟩) :
    Sound Q (callUnit c) :=
  ⟨fun h => ⟨[⟨c, .unit⟩], rfl, by simp [Aubun.callUnit], by simpa using hQ⟩⟩

/-- The call `log.Fatal` exits, it does not panic. -/
theorem Sound.Fatal {Q : Event → Prop} {α : Type} (msg : String) (hQ : Q ⟨.Fatal msg, .unit⟩) :
    Sound Q (Fatal msg : Prog α) :=
  ⟨fun h => ⟨[⟨.Fatal msg, .unit⟩], rfl, by simp [Aubun.Fatal], by simpa using hQ⟩⟩

/-- The statement `if err != nil { log.Fatal(err) }` is sound. -/
theorem Sound.fatalIf {Q : Event → Prop} (err : Option Err)
    (hQ : ∀ msg, Q ⟨.Fatal msg, .unit⟩) : Sound Q (fatalIf err) := by
  cases err with
  | none => exact Sound.pure ()
  | some e => exact Sound.Fatal e (hQ e)

/-- A call returning a value and an `error`, with its `log.Fatal`, is sound. -/
theorem Sound.callRes {Q : Event → Prop} {α : Type} (c : Call) (wrap : Res α → Reply)
    (f : List Event → Res α) (hQ : ∀ r, Q ⟨c, wrap r⟩) (hF : ∀ msg, Q ⟨.Fatal msg, .unit⟩) :
    Sound Q (callRes c wrap f) := by
  constructor
  intro h
  simp only [Aubun.callRes]
  cases hf : f h with
  | ok a => exact ⟨[⟨c, wrap (.ok a)⟩], rfl, by simp, by simpa using hQ _⟩
  | error e =>
    refine ⟨[⟨c, wrap (.error e)⟩, ⟨.Fatal e, .unit⟩], by simp [Aubun.Fatal], by simp [Aubun.Fatal], ?_⟩
    intro ev hev
    simp at hev
    rcases hev with rfl | rfl
    · exact hQ _
    · exact hF _

/-- A conditional is sound when both branches are. -/
theorem Sound.ite {Q : Event → Prop} {α : Type} (c : Prop) [Decidable c] {p q : Prog α}
    (hp : Sound Q p) (hq : Sound Q q) : Sound Q (if c then p else q) := by
  split_ifs
  · exact hp
  · exact hq

/-! ## `Binary` -/

/-- The DXVK block only extends the history, never panics, and does not
resolve a version. -/
theorem dxvkStage_sound (w : World) (a : Application) (cfg : Config) (pfx : WinePfx) :
    Sound (fun ev => ev.call.isLatestVersion = false) (dxvkStage w a cfg pfx) := by
  unfold dxvkStage dxvkInstall
  repeat' first
    | apply Sound.ite
    | apply Sound.bind
    | apply Sound.callErr
    | apply Sound.callRes
    | apply Sound.callUnit
    | apply Sound.fatalIf
    | apply Sound.pure
    | intro _
    | rfl

/-- The DXVK block makes no call of the install pipeline. -/
theorem dxvkStage_no_install (w : World) (a : Application) (cfg : Config) (pfx : WinePfx) :
    Sound (fun ev => ev.call.isInstall = false) (dxvkStage w a cfg pfx) := by
  unfold dxvkStage dxvkInstall
  repeat' first
    | apply Sound.ite
    | apply Sound.bind
    | apply Sound.callErr
    | apply Sound.callRes
    | apply Sound.callUnit
    | apply Sound.fatalIf
    | apply Sound.pure
    | intro _
    | rfl

/-- The install pipeline `SetupBinary` never panics and does not resolve a
version. -/
theorem SetupBinary_sound (w : World) (ver : Version) (dir : String) :
    Sound (fun ev => ev.call.isLatestVersion = false) (SetupBinary w ver dir) := by
  unfold SetupBinary
  repeat' first
    | apply Sound.bind
    | apply Sound.callErr
    | apply Sound.callRes
    | apply Sound.fatalIf
    | apply Sound.pure
    | intro _
    | rfl

/-- What follows the version resolution never panics and does not resolve a
version again. -/
theorem launchStage_sound (w : World) (bin : BinaryType) (pfx : WinePfx) (exe : String)
    (args : List String) (ver : Version) :
    Sound (fun ev => ev.call.isLatestVersion = false) (launchStage w bin pfx exe args ver) := by
  unfold launchStage Printf
  refine Sound.bind (Sound.callErr _ _ (fun _ => rfl)) (fun err => ?_)
  refine Sound.bind ?_ (fun _ => ?_)
  · cases err with
    | none => exact Sound.callUnit _ rfl
    | some e => exact Sound.bind (Sound.callUnit _ rfl) (fun _ => SetupBinary_sound w ver _)
  · exact Sound.bind (Sound.callUnit _ rfl) (fun _ =>
      Sound.bind (Sound.callErr _ _ (fun _ => rfl)) (fun _ => Sound.fatalIf _ (fun _ => rfl)))

/-- A sound program's final history is the initial one followed by what it
emitted. -/
theorem Sound.history {Q : Event → Prop} {α : Type} {p : Prog α} (hp : Sound Q p)
    (h : List Event) : (p h).2 = h ++ emitted p h ∧ ∀ ev ∈ emitted p h, Q ev := by
  obtain ⟨t, ht, -, hq⟩ := hp.run h
  have : emitted p h = t := by simp [emitted, ht]
  rw [this]
  exact ⟨ht, hq⟩

/-- Unfolding of sequencing at a history. -/
theorem bind_apply {α β : Type} (p : Prog α) (f : α → Prog β) (h : List Event) :
    (p >>= f) h = match p h with
      | (.ret a, h1) => f a h1
      | (.exit, h1) => (.exit, h1)
      | (.panic, h1) => (.panic, h1) := rfl

/-- Unfolding of `pure` at a history. -/
theorem pure_apply {α : Type} (a : α) (h : List Event) :
    (pure a : Prog α) h = (.ret a, h) := rfl

/-- The `args[0]` of lines 99-100 is in range: a joined argument vector that
starts with the launch scheme is not empty. -/
theorem parseStage_run (w : World) (a : Application) (args : List String) (h : List Event) :
    (HasPrefix (Join args " ") "roblox-player:1" = true ∧ ∃ uri rest, args = uri :: rest ∧
      parseStage w a args h = (.ret (w.ParsePlayerURI uri), h)) ∨
    (HasPrefix (Join args " ") "roblox-player:1" = false ∧
      parseStage w a args h = (.ret (args, a.Channel), h)) := by
  unfold parseStage
  cases hp : HasPrefix (Join args " ") "roblox-player:1" with
  | false => right; simp [pure_apply]
  | true =>
    left
    cases args with
    | nil => exact absurd hp (by decide)
    | cons uri rest => exact ⟨rfl, uri, rest, rfl, by simp [pure_apply]⟩

/-- Lines 103-106 always yield the configured channel, after the warning when
the proposed channel differs. -/
theorem forceChannel_run (a : Application) (ch : String) (h : List Event) :
    forceChannel a ch h = (.ret a.Channel, h ++ warning a ch) := by
  unfold forceChannel warning
  by_cases hc : ch = a.Channel
  · simp [hc, pure_apply]
  · simp [hc, bind_apply, pure_apply, Printf, callUnit]

/-- The part of `Binary` after the `switch`: `a` and `exe` are the selected
configuration and executable. -/
theorem Binary_after_select (w : World) (bin : BinaryType) (cfg : Config) (pfx : WinePfx)
    (args : List String) (h : List Event) (a : Application) (exe : String)
    (hsel : selectApp bin cfg h = (.ret (a, exe), h)) :
    ∃ dx, (dxvkStage w a cfg pfx h).2 = h ++ dx ∧
      (∀ ev ∈ dx, ev.call.isLatestVersion = false) ∧
      (((dxvkStage w a cfg pfx h).1 = .exit ∧ Binary w bin cfg pfx args h = (.exit, h ++ dx)) ∨
       ((dxvkStage w a cfg pfx h).1 = .ret () ∧
        ∃ args1 ch, parseStage w a args (h ++ dx) = (.ret (args1, ch), h ++ dx) ∧
          ((∃ e, w.LatestVersion (h ++ dx ++ warning a ch) bin a.Channel = .error e ∧
              Binary w bin cfg pfx args h = (.exit, h ++ dx ++ warning a ch ++
                [⟨.LatestVersion bin a.Channel, .version (.error e)⟩, ⟨.Fatal e, .unit⟩])) ∨
           (∃ ver, w.LatestVersion (h ++ dx ++ warning a ch) bin a.Channel = .ok ver ∧
              Binary w bin cfg pfx args h = launchStage w bin pfx exe args1 ver
                (h ++ dx ++ warning a ch ++
                  [⟨.LatestVersion bin a.Channel, .version (.ok ver)⟩]))))) := by
  obtain ⟨dx, hdx, hnp, hq⟩ := (dxvkStage_sound w a cfg pfx).run h
  refine ⟨dx, hdx, hq, ?_⟩
  rcases hd : dxvkStage w a cfg pfx h with ⟨o, h1⟩
  rw [hd] at hdx hnp
  simp only at hdx hnp
  subst hdx
  cases o with
  | panic => exact absurd rfl hnp
  | exit =>
    left
    refine ⟨rfl, ?_⟩
    simp [Binary, bind_apply, hsel, hd]
  | ret u =>
    right
    refine ⟨rfl, ?_⟩
    have hps := parseStage_run w a args (h ++ dx)
    have hbin : ∀ args1 ch, parseStage w a args (h ++ dx) = (.ret (args1, ch), h ++ dx) →
        Binary w bin cfg pfx args h =
          (callRes (.LatestVersion bin a.Channel) .version
              (fun h => w.LatestVersion h bin a.Channel) >>=
            launchStage w bin pfx exe args1) (h ++ dx ++ warning a ch) := by
      intro args1 ch hp
      simp [Binary, bind_apply, hsel, hd, hp, forceChannel_run]
    have hfin : ∀ args1 ch, parseStage w a args (h ++ dx) = (.ret (args1, ch), h ++ dx) →
        ((∃ e, w.LatestVersion (h ++ dx ++ warning a ch) bin a.Channel = .error e ∧
              Binary w bin cfg pfx args h = (.exit, h ++ dx ++ warning a ch ++
                [⟨.LatestVersion bin a.Channel, .version (.error e)⟩, ⟨.Fatal e, .unit⟩])) ∨
           (∃ ver, w.LatestVersion (h ++ dx ++ warning a ch) bin a.Channel = .ok ver ∧
              Binary w bin cfg pfx args h = launchStage w bin pfx exe args1 ver
                (h ++ dx ++ warning a ch ++
                  [⟨.LatestVersion bin a.Channel, .version (.ok ver)⟩]))) := by
      intro args1 ch hp
      rw [hbin args1 ch hp]
      cases hlv : w.LatestVersion (h ++ dx ++ warning a ch) bin a.Channel with
      | error e =>
        left
        exact ⟨e, rfl, by simp only [bind_apply, callRes, hlv, Fatal]; simp⟩
      | ok ver =>
        right
        exact ⟨ver, rfl, by simp only [bind_apply, callRes, hlv]⟩
    rcases hps with ⟨-, uri, rest, -, hp⟩ | ⟨-, hp⟩
    · exact ⟨_, _, hp, hfin _ _ hp⟩
    · exact ⟨_, _, hp, hfin _ _ hp⟩

/-- The warning is log output, not a version resolution. -/
theorem warning_not_resolve (a : Application) (ch : String) :
    ∀ ev ∈ warning a ch, ev.call.isLatestVersion = false := by
  unfold warning
  split_ifs <;> simp [Call.isLatestVersion]

/-- The warning is log output, not a call of the install pipeline. -/
theorem warning_no_install (a : Application) (ch : String) :
    ∀ ev ∈ warning a ch, ev.call.isInstall = false := by
  unfold warning
  split_ifs <;> simp [Call.isInstall]

/-- The trace of `Binary` once a configuration is selected: the DXVK block,
the optional warning, one `LatestVersion` call with the configured channel,
and what follows it. -/
theorem Binary_trace (w : World) (bin : BinaryType) (cfg : Config) (pfx : WinePfx)
    (args : List String) (h : List Event) (a : Application) (exe : String)
    (hsel : selectApp bin cfg h = (.ret (a, exe), h)) :
    ∃ dx, (dxvkStage w a cfg pfx h).2 = h ++ dx ∧
      (∀ ev ∈ dx, ev.call.isLatestVersion = false) ∧
      (((dxvkStage w a cfg pfx h).1 = .exit ∧ emitted (Binary w bin cfg pfx args) h = dx) ∨
       ((dxvkStage w a cfg pfx h).1 = .ret () ∧
        ∃ args1 ch tail, parseStage w a args (h ++ dx) = (.ret (args1, ch), h ++ dx) ∧
          emitted (Binary w bin cfg pfx args) h = (dx ++ warning a ch) ++
            ⟨.LatestVersion bin a.Channel,
              .version (w.LatestVersion (h ++ (dx ++ warning a ch)) bin a.Channel)⟩ :: tail ∧
          (∀ ev ∈ tail, ev.call.isLatestVersion = false) ∧
          (∀ ver, w.LatestVersion (h ++ (dx ++ warning a ch)) bin a.Channel = .ok ver →
            tail = emitted (launchStage w bin pfx exe args1 ver)
              (h ++ (dx ++ warning a ch) ++
                [⟨.LatestVersion bin a.Channel, .version (.ok ver)⟩])))) := by
  obtain ⟨dx, hdx, hq, hcase⟩ := Binary_after_select w bin cfg pfx args h a exe hsel
  refine ⟨dx, hdx, hq, ?_⟩
  rcases hcase with ⟨hex, hb⟩ | ⟨hret, args1, ch, hp, hlv⟩
  · exact Or.inl ⟨hex, emitted_of_run _ _ _ _ hb⟩
  · refine Or.inr ⟨hret, args1, ch, ?_⟩
    rcases hlv with ⟨e, he, hb⟩ | ⟨ver, hv, hb⟩
    · refine ⟨[⟨.Fatal e, .unit⟩], hp, ?_, by simp [Call.isLatestVersion], ?_⟩
      · rw [List.append_assoc] at he
        rw [he]
        apply emitted_of_run _ _ _ .exit
        rw [hb]
        simp
      · intro ver hv
        rw [List.append_assoc] at he
        rw [he] at hv
        cases hv
    · obtain ⟨hh, hnl⟩ := (launchStage_sound w bin pfx exe args1 ver).history
        (h ++ dx ++ warning a ch ++ [⟨.LatestVersion bin a.Channel, .version (.ok ver)⟩])
      refine ⟨emitted (launchStage w bin pfx exe args1 ver)
        (h ++ dx ++ warning a ch ++ [⟨.LatestVersion bin a.Channel, .version (.ok ver)⟩]),
        hp, ?_, hnl, ?_⟩
      · have hv2 := hv
        rw [List.append_assoc] at hv2
        rw [hv2]
        apply emitted_of_run _ _ _ (Binary w bin cfg pfx args h).1
        rw [Prod.ext_iff]
        refine ⟨rfl, ?_⟩
        simp only
        rw [hb, hh]
        simp
      · intro ver2 hv2
        rw [List.append_assoc] at hv
        rw [hv] at hv2
        cases hv2
        simp [List.append_assoc]

/-- The `switch bin` of `Binary` reads `cfg.Player` for both flavors; any
other value ends the process. -/
theorem selectApp_cases (bin : BinaryType) (cfg : Config) (h : List Event) :
    (bin = .Player ∧ selectApp bin cfg h = (.ret (cfg.Player, "RobloxPlayerBeta.exe"), h)) ∨
    (bin = .Studio ∧ selectApp bin cfg h = (.ret (cfg.Player, "RobloxStudioBeta.exe"), h)) ∨
    (∃ n, bin = .Other n ∧
      selectApp bin cfg h = (.exit, h ++ [⟨.Fatal "invalid binary type given", .unit⟩])) := by
  cases bin with
  | Player => exact Or.inl ⟨rfl, rfl⟩
  | Studio => exact Or.inr (Or.inl ⟨rfl, rfl⟩)
  | Other n => exact Or.inr (Or.inr ⟨n, rfl, rfl⟩)

/-- An event whose call is `LatestVersion` is a version resolution. -/
theorem isLatestVersion_of_call {ev : Event} {b : BinaryType} {ch : String}
    (hev : ev.call = .LatestVersion b ch) : ev.call.isLatestVersion = true := by
  rw [hev]; rfl

/-- Claim C1. Every `LatestVersion` call that `Binary` makes is for the flavor
`bin` and for the channel of the application configuration that the `switch`
selected (`selectApp`; the source selects `cfg.Player` for both flavors),
whatever `ParsePlayerURI` returned.  When the DXVK block returns, exactly one
`LatestVersion` call is made, and when the arguments are a launch URI whose
parsed channel differs from the configured one, the event right before that
call is the warning naming the parsed channel. -/
theorem Binary_resolves_configured_channel (w : World) (bin : BinaryType) (cfg : Config)
    (pfx : WinePfx) (args : List String) (h : List Event) :
    (∀ ev ∈ emitted (Binary w bin cfg pfx args) h, ∀ b ch, ev.call = .LatestVersion b ch →
      b = bin ∧ ∃ a exe, selectApp bin cfg h = (.ret (a, exe), h) ∧ ch = a.Channel) ∧
    (∀ a exe h1, selectApp bin cfg h = (.ret (a, exe), h) →
      dxvkStage w a cfg pfx h = (.ret (), h1) →
      ∃ pre post, emitted (Binary w bin cfg pfx args) h =
          pre ++ ⟨.LatestVersion bin a.Channel,
            .version (w.LatestVersion (h ++ pre) bin a.Channel)⟩ :: post ∧
        (∀ ev ∈ pre ++ post, ev.call.isLatestVersion = false) ∧
        ∀ uri rest, args = uri :: rest → HasPrefix (Join args " ") "roblox-player:1" = true →
          (w.ParsePlayerURI uri).2 ≠ a.Channel →
          pre.getLast? = some ⟨.Printf ("WARNING: Launch URI has a different channel: " ++
            (w.ParsePlayerURI uri).2 ++ ", forcing user-specified channel"), .unit⟩) := by
  constructor
  · intro ev hev b ch hcall
    have hlv := isLatestVersion_of_call hcall
    have key : ∀ a exe, selectApp bin cfg h = (.ret (a, exe), h) →
        b = bin ∧ ∃ a exe, selectApp bin cfg h = (.ret (a, exe), h) ∧ ch = a.Channel := by
      intro a exe hsel
      obtain ⟨dx, -, hq, hcase⟩ := Binary_trace w bin cfg pfx args h a exe hsel
      rcases hcase with ⟨-, hem⟩ | ⟨-, args1, c, tail, -, hem, htail, -⟩
      · rw [hem] at hev
        rw [hq ev hev] at hlv
        cases hlv
      · rw [hem] at hev
        simp only [List.mem_append, List.mem_cons] at hev
        rcases hev with (hm | hm) | rfl | hm
        · rw [hq ev hm] at hlv; cases hlv
        · rw [warning_not_resolve a c ev hm] at hlv; cases hlv
        · simp only [Call.LatestVersion.injEq] at hcall
          exact ⟨hcall.1.symm, a, exe, hsel, hcall.2.symm⟩
        · rw [htail ev hm] at hlv; cases hlv
    rcases selectApp_cases bin cfg h with ⟨-, hsel⟩ | ⟨-, hsel⟩ | ⟨n, hn, hsel⟩
    · exact key _ _ hsel
    · exact key _ _ hsel
    · have hb : Binary w bin cfg pfx args h =
          (.exit, h ++ [⟨.Fatal "invalid binary type given", .unit⟩]) := by
        simp [Binary, bind_apply, hsel]
      rw [emitted_of_run _ _ _ _ hb] at hev
      simp only [List.mem_singleton] at hev
      rw [hev] at hlv
      cases hlv
  · intro a exe h1 hsel hd
    obtain ⟨dx, hdx, hq, hcase⟩ := Binary_trace w bin cfg pfx args h a exe hsel
    rcases hcase with ⟨hex, -⟩ | ⟨-, args1, c, tail, hp, hem, htail, -⟩
    · rw [hd] at hex
      cases hex
    · refine ⟨dx ++ warning a c, tail, hem, ?_, ?_⟩
      · intro ev hev
        simp only [List.mem_append] at hev
        rcases hev with (hm | hm) | hm
        · exact hq ev hm
        · exact warning_not_resolve a c ev hm
        · exact htail ev hm
      · intro uri rest hargs hpre hne
        rcases parseStage_run w a args (h ++ dx) with ⟨-, u2, r2, hargs2, hp2⟩ | ⟨hno, -⟩
        · rw [hargs] at hargs2
          cases hargs2
          rw [hp] at hp2
          have hc : c = (w.ParsePlayerURI uri).2 := by
            have := congrArg (fun x => match x.1 with | .ret r => r.2 | _ => "") hp2
            simpa using this
          rw [← hc] at hne ⊢
          simp [warning, hne]
        · rw [hpre] at hno
          cases hno

/-- An element satisfying `P` splits a list in one way when nothing else in
the list satisfies `P`. -/
theorem split_unique {α : Type} (P : α → Bool) :
    ∀ {a b a1 b1 : List α} {x x1 : α}, a ++ x :: b = a1 ++ x1 :: b1 →
      P x1 = true → (∀ y ∈ a, P y = false) → (∀ y ∈ b, P y = false) →
      a = a1 ∧ x = x1 ∧ b = b1 := by
  intro a
  induction a with
  | nil =>
    intro b a1 b1 x x1 heq hx1 _ hb
    cases a1 with
    | nil =>
      simp only [List.nil_append, List.cons.injEq] at heq
      exact ⟨rfl, heq.1, heq.2⟩
    | cons y a2 =>
      simp only [List.nil_append, List.cons_append, List.cons.injEq] at heq
      have hmem : x1 ∈ b := by rw [heq.2]; simp
      rw [hb x1 hmem] at hx1
      cases hx1
  | cons z a ih =>
    intro b a1 b1 x x1 heq hx1 ha hb
    cases a1 with
    | nil =>
      simp only [List.nil_append, List.cons_append, List.cons.injEq] at heq
      have hz := ha z (by simp)
      rw [heq.1, hx1] at hz
      cases hz
    | cons y a2 =>
      simp only [List.cons_append, List.cons.injEq] at heq
      obtain ⟨h1, h2, h3⟩ := ih heq.2 hx1 (fun y hy => ha y (by simp [hy])) hb
      exact ⟨by rw [heq.1, h1], h2, h3⟩

/-- With the marker file present, nothing is installed: the version is
reported up to date and launched from its directory. -/
theorem launchStage_marker_present (w : World) (bin : BinaryType) (pfx : WinePfx)
    (exe : String) (args : List String) (ver : Version) (h : List Event)
    (hs : w.Stat h (w.Join (w.Join w.Versions ver.GUID) "AppSettings.xml") = none) :
    ∃ r, emitted (launchStage w bin pfx exe args ver) h =
      [⟨.Stat (w.Join (w.Join w.Versions ver.GUID) "AppSettings.xml"), .error none⟩,
       ⟨.Printf (w.BinString bin ++ " is up to date (" ++ ver.GUID ++ ")"), .unit⟩,
       ⟨.Printf ("Launching " ++ w.BinString bin), .unit⟩,
       ⟨.Exec pfx (w.Join (w.Join w.Versions ver.GUID) exe :: args), .error r⟩] ++
      fatalTail r := by
  refine ⟨w.Exec (h ++ [⟨.Stat (w.Join (w.Join w.Versions ver.GUID) "AppSettings.xml"),
      .error none⟩] ++
    [⟨.Printf (w.BinString bin ++ " is up to date (" ++ ver.GUID ++ ")"), .unit⟩] ++
    [⟨.Printf ("Launching " ++ w.BinString bin), .unit⟩]) pfx
    (w.Join (w.Join w.Versions ver.GUID) exe :: args), ?_⟩
  simp only [emitted, launchStage, bind_apply, callErr, Printf, callUnit, hs]
  cases w.Exec _ pfx _ <;> simp [fatalIf, fatalTail, Fatal, pure_apply]

/-- With the marker file missing, `SetupBinary` runs for the version
directory right after the "Updating/Installing" message. -/
theorem launchStage_marker_missing (w : World) (bin : BinaryType) (pfx : WinePfx)
    (exe : String) (args : List String) (ver : Version) (h : List Event) (e : Err)
    (hs : w.Stat h (w.Join (w.Join w.Versions ver.GUID) "AppSettings.xml") = some e) :
    ∃ rest, emitted (launchStage w bin pfx exe args ver) h =
      ⟨.Stat (w.Join (w.Join w.Versions ver.GUID) "AppSettings.xml"), .error (some e)⟩ ::
      ⟨.Printf ("Updating/Installing " ++ w.BinString bin), .unit⟩ ::
      (emitted (SetupBinary w ver (w.Join w.Versions ver.GUID))
        (h ++ [⟨.Stat (w.Join (w.Join w.Versions ver.GUID) "AppSettings.xml"),
            .error (some e)⟩,
          ⟨.Printf ("Updating/Installing " ++ w.BinString bin), .unit⟩]) ++ rest) := by
  obtain ⟨hh, -⟩ := (SetupBinary_sound w ver (w.Join w.Versions ver.GUID)).history
    (h ++ [⟨.Stat (w.Join (w.Join w.Versions ver.GUID) "AppSettings.xml"), .error (some e)⟩,
      ⟨.Printf ("Updating/Installing " ++ w.BinString bin), .unit⟩])
  generalize emitted (SetupBinary w ver (w.Join w.Versions ver.GUID))
    (h ++ [⟨.Stat (w.Join (w.Join w.Versions ver.GUID) "AppSettings.xml"), .error (some e)⟩,
      ⟨.Printf ("Updating/Installing " ++ w.BinString bin), .unit⟩]) = t at hh ⊢
  simp only [emitted, launchStage, bind_apply, callErr, Printf, callUnit, hs]
  simp only [List.append_assoc, List.singleton_append]
  rcases hsb : SetupBinary w ver (w.Join w.Versions ver.GUID)
    (h ++ [⟨.Stat (w.Join (w.Join w.Versions ver.GUID) "AppSettings.xml"), .error (some e)⟩,
      ⟨.Printf ("Updating/Installing " ++ w.BinString bin), .unit⟩]) with ⟨o, h2⟩
  rw [hsb] at hh
  simp only at hh
  subst hh
  simp only [hsb]
  cases o with
  | exit => exact ⟨[], by simp⟩
  | panic => exact ⟨[], by simp⟩
  | ret u =>
    simp only
    cases w.Exec _ pfx _ with
    | none => exact ⟨_, by simp [fatalIf, pure_apply]; rfl⟩
    | some e2 => exact ⟨_, by simp [fatalIf, Fatal]; rfl⟩

/-- Claim C4. Take any `LatestVersion` call of `Binary` that returned a
version `ver`, and let the marker file be `AppSettings.xml` in the version
directory `Versions/<GUID>`.  When `os.Stat` of the marker returns an error,
what follows is the "Updating/Installing" message and then the run of
`SetupBinary` for that version and directory.  When `os.Stat` returns no
error, what follows is exactly: the stat, the "up to date" message, the
"Launching" message and the launch of the executable of that version
directory (then `log.Fatal` if the launch failed), and the whole run, before
and after the version is resolved, makes no call of the install pipeline: no
directory creation, manifest fetch, download, extraction, state save or
garbage collection. -/
theorem Binary_installs_iff_marker_missing (w : World) (bin : BinaryType) (cfg : Config)
    (pfx : WinePfx) (args : List String) (h pre post : List Event) (b : BinaryType)
    (ch : String) (ver : Version)
    (hsplit : emitted (Binary w bin cfg pfx args) h =
      pre ++ ⟨.LatestVersion b ch, .version (.ok ver)⟩ :: post) :
    (∀ e, w.Stat (h ++ pre ++ [⟨.LatestVersion b ch, .version (.ok ver)⟩])
        (w.Join (w.Join w.Versions ver.GUID) "AppSettings.xml") = some e →
      ∃ rest, post =
        ⟨.Stat (w.Join (w.Join w.Versions ver.GUID) "AppSettings.xml"), .error (some e)⟩ ::
        ⟨.Printf ("Updating/Installing " ++ w.BinString bin), .unit⟩ ::
        (emitted (SetupBinary w ver (w.Join w.Versions ver.GUID))
          (h ++ pre ++ [⟨.LatestVersion b ch, .version (.ok ver)⟩] ++
            [⟨.Stat (w.Join (w.Join w.Versions ver.GUID) "AppSettings.xml"),
                .error (some e)⟩,
              ⟨.Printf ("Updating/Installing " ++ w.BinString bin), .unit⟩]) ++ rest)) ∧
    (w.Stat (h ++ pre ++ [⟨.LatestVersion b ch, .version (.ok ver)⟩])
        (w.Join (w.Join w.Versions ver.GUID) "AppSettings.xml") = none →
      (∃ exe args1 r,
        ((bin = .Player ∧ exe = "RobloxPlayerBeta.exe") ∨
          (bin = .Studio ∧ exe = "RobloxStudioBeta.exe")) ∧
        post =
          [⟨.Stat (w.Join (w.Join w.Versions ver.GUID) "AppSettings.xml"), .error none⟩,
           ⟨.Printf (w.BinString bin ++ " is up to date (" ++ ver.GUID ++ ")"), .unit⟩,
           ⟨.Printf ("Launching " ++ w.BinString bin), .unit⟩,
           ⟨.Exec pfx (w.Join (w.Join w.Versions ver.GUID) exe :: args1), .error r⟩] ++
          fatalTail r) ∧
      ∀ ev ∈ pre ++ post, ev.call.isInstall = false) := by
  have hmem : (⟨.LatestVersion b ch, .version (.ok ver)⟩ : Event) ∈
      emitted (Binary w bin cfg pfx args) h := by rw [hsplit]; simp
  have key : ∀ a exe, selectApp bin cfg h = (.ret (a, exe), h) →
      ∃ args1, (∀ ev ∈ pre, ev.call.isInstall = false) ∧
        post = emitted (launchStage w bin pfx exe args1 ver)
          (h ++ pre ++ [⟨.LatestVersion b ch, .version (.ok ver)⟩]) := by
    intro a exe hsel
    obtain ⟨dx, hdx, hq, hcase⟩ := Binary_trace w bin cfg pfx args h a exe hsel
    have hni : ∀ ev ∈ dx, ev.call.isInstall = false := by
      obtain ⟨hh, hall⟩ := (dxvkStage_no_install w a cfg pfx).history h
      rw [hdx] at hh
      rw [List.append_cancel_left hh]
      exact hall
    rcases hcase with ⟨-, hem⟩ | ⟨-, args1, c, tail, -, hem, htail, hok⟩
    · rw [hem] at hmem
      have := hq _ hmem
      cases this
    · rw [hem] at hsplit
      have hpre : ∀ y ∈ dx ++ warning a c, Call.isLatestVersion y.call = false := by
        intro y hy
        rcases List.mem_append.mp hy with hm | hm
        · exact hq y hm
        · exact warning_not_resolve a c y hm
      obtain ⟨h1, h2, h3⟩ := split_unique (fun ev => ev.call.isLatestVersion) hsplit rfl
        hpre htail
      simp only [Event.mk.injEq, Call.LatestVersion.injEq, Reply.version.injEq] at h2
      obtain ⟨⟨hb, hc⟩, hr⟩ := h2
      refine ⟨args1, ?_, ?_⟩
      · intro ev hev
        rw [← h1] at hev
        rcases List.mem_append.mp hev with hm | hm
        · exact hni ev hm
        · exact warning_no_install a c ev hm
      · rw [← h3, hok ver hr, h1, ← hb, ← hc]
  have hx : ∃ exe args1,
      ((bin = .Player ∧ exe = "RobloxPlayerBeta.exe") ∨
        (bin = .Studio ∧ exe = "RobloxStudioBeta.exe")) ∧
      (∀ ev ∈ pre, ev.call.isInstall = false) ∧
      post = emitted (launchStage w bin pfx exe args1 ver)
          (h ++ pre ++ [⟨.LatestVersion b ch, .version (.ok ver)⟩]) := by
    rcases selectApp_cases bin cfg h with ⟨hb, hsel⟩ | ⟨hb, hsel⟩ | ⟨n, hn, hsel⟩
    · obtain ⟨args1, hpre, hpost⟩ := key _ _ hsel
      exact ⟨_, args1, Or.inl ⟨hb, rfl⟩, hpre, hpost⟩
    · obtain ⟨args1, hpre, hpost⟩ := key _ _ hsel
      exact ⟨_, args1, Or.inr ⟨hb, rfl⟩, hpre, hpost⟩
    · have hbin : Binary w bin cfg pfx args h =
          (.exit, h ++ [⟨.Fatal "invalid binary type given", .unit⟩]) := by
        simp [Binary, bind_apply, hsel]
      rw [emitted_of_run _ _ _ _ hbin] at hmem
      simp at hmem
  obtain ⟨exe, args1, hexe, hpre, hpost⟩ := hx
  constructor
  · intro e hs
    obtain ⟨rest, hrest⟩ := launchStage_marker_missing w bin pfx exe args1 ver _ e hs
    exact ⟨rest, by rw [hpost, hrest]⟩
  · intro hs
    obtain ⟨r, hr⟩ := launchStage_marker_present w bin pfx exe args1 ver _ hs
    refine ⟨⟨exe, args1, r, hexe, by rw [hpost, hr]⟩, ?_⟩
    intro ev hev
    rcases List.mem_append.mp hev with hm | hm
    · exact hpre ev hm
    · rw [hpost, hr] at hm
      cases r with
      | none =>
        simp [fatalTail] at hm
        rcases hm with rfl | rfl | rfl | rfl <;> rfl
      | some e2 =>
        simp [fatalTail] at hm
        rcases hm with rfl | rfl | rfl | rfl | rfl <;> rfl

/-- Witness of claim C1: the launch URI proposes `beta`, the configured
channel is `live`; the version is resolved for `live` and the event before
that call is the warning. -/
theorem Binary_resolves_configured_channel_witness :
    ∃ pre post, emitted (Binary quietWorld .Player liveCfg ⟨"/pfx"⟩
        ["roblox-player:1+launchmode:play+channel:beta"]) [] =
        pre ++ ⟨.LatestVersion .Player "live",
          .version (.ok ⟨.Player, "live", "version-1"⟩)⟩ :: post ∧
      pre.getLast? = some ⟨.Printf
        "WARNING: Launch URI has a different channel: beta, forcing user-specified channel",
        .unit⟩ := by
  obtain ⟨pre, post, hem, -, hw⟩ :=
    (Binary_resolves_configured_channel quietWorld .Player liveCfg ⟨"/pfx"⟩
      ["roblox-player:1+launchmode:play+channel:beta"] []).2
      liveCfg.Player "RobloxPlayerBeta.exe" _ rfl rfl
  exact ⟨pre, post, hem, hw _ [] rfl (by decide) (by decide)⟩

/-- Witness of claim C4: in `installedWorld` the marker file exists, and after
the version is resolved `Binary` only stats, logs and launches. -/
theorem Binary_installs_iff_marker_missing_witness :
    ∃ exe args1 r,
      (((BinaryType.Player = .Player) ∧ exe = "RobloxPlayerBeta.exe") ∨
        ((BinaryType.Player = .Studio) ∧ exe = "RobloxStudioBeta.exe")) ∧
      ([⟨.Stat "/data/versions/version-1/AppSettings.xml", .error none⟩,
        ⟨.Printf "Player is up to date (version-1)", .unit⟩,
        ⟨.Printf "Launching Player", .unit⟩,
        ⟨.Exec ⟨"/pfx"⟩ ["/data/versions/version-1/RobloxPlayerBeta.exe", "-x"],
          .error none⟩] : List Event) =
        [⟨.Stat "/data/versions/version-1/AppSettings.xml", .error none⟩,
         ⟨.Printf "Player is up to date (version-1)", .unit⟩,
         ⟨.Printf "Launching Player", .unit⟩,
         ⟨.Exec ⟨"/pfx"⟩ (("/data/versions/version-1" ++ "/" ++ exe) :: args1), .error r⟩] ++
        fatalTail r :=
  (Binary_installs_iff_marker_missing installedWorld .Player liveCfg ⟨"/pfx"⟩ ["-x"] []
    [⟨.DxvkRemove ⟨"/pfx"⟩, .error none⟩, ⟨.SaveDxvk false, .error none⟩]
    [⟨.Stat "/data/versions/version-1/AppSettings.xml", .error none⟩,
      ⟨.Printf "Player is up to date (version-1)", .unit⟩,
      ⟨.Printf "Launching Player", .unit⟩,
      ⟨.Exec ⟨"/pfx"⟩ ["/data/versions/version-1/RobloxPlayerBeta.exe", "-x"], .error none⟩]
    .Player "live" ⟨.Player, "live", "version-1"⟩ (by decide)).2 rfl |>.1

end Aubun

namespace Cfg

open strings

/-- Unfolding of sequencing at a history. -/
theorem run_bind {α β : Type} (p : Prog α) (f : α → Prog β) (h : List Event) :
    (p >>= f) h = match p h with
      | (.ret a, h1) => f a h1
      | (.panic, h1) => (.panic, h1) := rfl

/-- Unfolding of `pure` at a history. -/
theorem run_pure {α : Type} (a : α) (h : List Event) :
    (pure a : Prog α) h = (.ret a, h) := rfl

/-- Unfolding of an external call at a history. -/
theorem run_call {α : Type} (c : Call) (wrap : α → Reply) (f : List Event → α)
    (h : List Event) : call c wrap f h = (.ret (f h), h ++ [⟨c, wrap (f h)⟩]) := rfl

/-! ## `Load` -/

/-- Claim C5, as amended.  When `os.Stat` of the named file returns an error
for which `errors.Is(err, os.ErrNotExist)` holds, `Load` falls back to the
default configuration: it returns the configuration `Default()` and a nil
error, and the stat is the only call it makes.  (A file that is absent for
another reason, such as a path component that is not a directory, is not
covered: see `Load_absent_file_not_directory`.) -/
theorem Load_missing_file_returns_Default (w : World) (name : String) (h : List Event)
    (hs : w.Stat h name = .notExist) :
    Load w name h = (.ret (Default w, none), h ++ [⟨.Stat name, .stat .notExist⟩]) := by
  unfold Load
  rw [run_bind, run_call]
  simp only [hs]
  rfl

/-- Witness of claim C5: no configuration file in `bareWorld`. -/
theorem Load_missing_file_returns_Default_witness :
    Load bareWorld "/home/user/.config/vinegar/config.toml" [] =
      (.ret (Default bareWorld, none),
        [] ++ [⟨.Stat "/home/user/.config/vinegar/config.toml", .stat .notExist⟩]) :=
  Load_missing_file_returns_Default bareWorld "/home/user/.config/vinegar/config.toml" [] rfl

/-- Claim C5 as first stated fails.  The file `/etc/passwd/config.toml` does
not exist, yet `os.Stat` reports ENOTDIR and not `os.ErrNotExist`: `Load` goes
on to `toml.DecodeFile`, which fails, and `Load` returns a non-nil error
instead of falling back to `(Default(), nil)`. -/
theorem Load_absent_file_not_directory :
    Load notDirWorld "/etc/passwd/config.toml" [] =
      (.ret (Default notDirWorld,
          some (.new "open /etc/passwd/config.toml: not a directory")),
        [⟨.Stat "/etc/passwd/config.toml",
            .stat (.other (.new "stat /etc/passwd/config.toml: not a directory"))⟩,
          ⟨.DecodeFile "/etc/passwd/config.toml" (Default notDirWorld),
            .config (Default notDirWorld)
              (some (.new "open /etc/passwd/config.toml: not a directory"))⟩]) ∧
    (Load notDirWorld "/etc/passwd/config.toml" []).1 ≠ .ret (Default notDirWorld, none) := by
  constructor
  · decide
  · decide

/-- The sibling path of `Load`: when the file can be decoded, `Load` is
`Config.setup` on the decoded configuration. -/
theorem Load_decoded_runs_setup (w : World) (name : String) (h : List Event) (c : Config)
    (hs : w.Stat h name ≠ .notExist)
    (hd : w.DecodeFile (h ++ [⟨.Stat name, .stat (w.Stat h name)⟩]) name (Default w) =
      (c, none)) :
    Load w name h = Config.setup w c (h ++ [⟨.Stat name, .stat (w.Stat h name)⟩] ++
      [⟨.DecodeFile name (Default w), .config c none⟩]) := by
  simp only [Load, run_bind, run_call]
  cases hst : w.Stat h name with
  | notExist => exact absurd hst hs
  | ok =>
    rw [hst] at hd
    simp [run_bind, run_call, hd]
  | other e =>
    rw [hst] at hd
    simp [run_bind, run_call, hd]

/-- Whenever the named file does not exist, `Load` makes no call of a setup
routine. -/
theorem Load_missing_file_makes_no_setup_call (w : World) (name : String) (h : List Event)
    (hs : w.Stat h name = .notExist) :
    ∀ ev ∈ emitted (Load w name) h, ev.call.isSetup = false := by
  have hl : Load w name h = (.ret (Default w, none), h ++ [⟨.Stat name, .stat .notExist⟩]) := by
    simp [Load, run_bind, run_call, run_pure, hs]
  simp [emitted, hl, Call.isSetup]

/-- Claim C6, the code at the failing input: no configuration file exists in
`bareWorld`.  `Load` returns the default configuration with a nil error after
the single call `os.Stat`: no setup routine ran, and the returned
configuration is not the one `Config.setup` produces from it, which carries
the renderer flags that `SetRenderer` adds. -/
theorem Load_missing_file_skips_setup :
    (Load bareWorld "/home/user/.config/vinegar/config.toml" []).1 =
      .ret (Default bareWorld, none) ∧
    emitted (Load bareWorld "/home/user/.config/vinegar/config.toml") [] =
      [⟨.Stat "/home/user/.config/vinegar/config.toml", .stat .notExist⟩] ∧
    (∀ ev ∈ emitted (Load bareWorld "/home/user/.config/vinegar/config.toml") [],
      ev.call.isSetup = false) ∧
    (∃ c, (Config.setup bareWorld (Default bareWorld) []).1 = .ret (c, none) ∧
      c ≠ Default bareWorld ∧
      c.Player.FFlags = [("DFIntTaskSchedulerTargetFps", .int 640),
        ("FFlagDebugGraphicsPreferD3D11", .bool true)] ∧
      (emitted (Config.setup bareWorld (Default bareWorld)) []).map
        (fun ev => ev.call.isSetup) = [true, true, true, true, true]) := by
  refine ⟨by decide, by decide, by decide, ?_⟩
  refine ⟨_, rfl, by decide, by decide, by decide⟩

/-! ## `Binary.setup` and `Config.setup` -/

/-- Claim C7. Let `SetRenderer` succeed for a binary configuration `b`.  When
DXVK is enabled and the renderer does not begin with `D3D11`, `Binary.setup`
returns `ErrNeedDXVKRenderer` and its only call is `SetRenderer`: no launcher
lookup, no card selection.  When DXVK is disabled or the renderer begins with
`D3D11`, `Binary.setup` goes on with the launcher lookup and the card
selection (`Binary.finish`), and with no launcher configured it returns what
`pickCard` returns.  In `Config.setup`, once the preparation succeeded, a
player configuration failing the DXVK check yields the error wrapped as
`player: ...` without any call for the studio; a studio configuration failing
it, after the player was set up without error, yields `studio: ...`. -/
theorem DXVK_needs_D3D11_renderer (w : World) :
    (∀ b h flags, w.SetRenderer b.FFlags b.Renderer = (flags, none) →
      b.Dxvk = true → HasPrefix b.Renderer "D3D11" = false →
      Binary.setup w b h = (.ret ({ b with FFlags := flags }, some ErrNeedDXVKRenderer),
        h ++ [⟨.SetRenderer b.FFlags b.Renderer, .flags flags none⟩])) ∧
    (∀ b h flags, w.SetRenderer b.FFlags b.Renderer = (flags, none) →
      (b.Dxvk = false ∨ HasPrefix b.Renderer "D3D11" = true) →
      Binary.setup w b h = Binary.finish w { b with FFlags := flags }
          (h ++ [⟨.SetRenderer b.FFlags b.Renderer, .flags flags none⟩]) ∧
        (b.Launcher = "" →
          Binary.setup w b h =
            (.ret (w.pickCard (h ++ [⟨.SetRenderer b.FFlags b.Renderer, .flags flags none⟩])
                { b with FFlags := flags }),
              h ++ [⟨.SetRenderer b.FFlags b.Renderer, .flags flags none⟩] ++
                [⟨.pickCard { b with FFlags := flags },
                  .binary
                    (w.pickCard (h ++ [⟨.SetRenderer b.FFlags b.Renderer, .flags flags none⟩])
                      { b with FFlags := flags }).1
                    (w.pickCard (h ++ [⟨.SetRenderer b.FFlags b.Renderer, .flags flags none⟩])
                      { b with FFlags := flags }).2⟩]))) ∧
    (∀ c h c1 h1 flags, Config.prepare w c h = (.ret (c1, none), h1) →
      w.SetRenderer c1.Player.FFlags c1.Player.Renderer = (flags, none) →
      c1.Player.Dxvk = true → HasPrefix c1.Player.Renderer "D3D11" = false →
      Config.setup w c h =
        (.ret ({ c1 with Player := { c1.Player with FFlags := flags } },
            some (Errorf "player: " ErrNeedDXVKRenderer)),
          h1 ++ [⟨.SetRenderer c1.Player.FFlags c1.Player.Renderer, .flags flags none⟩])) ∧
    (∀ c h c1 h1 p h2 flags, Config.prepare w c h = (.ret (c1, none), h1) →
      Binary.setup w c1.Player h1 = (.ret (p, none), h2) →
      w.SetRenderer c1.Studio.FFlags c1.Studio.Renderer = (flags, none) →
      c1.Studio.Dxvk = true → HasPrefix c1.Studio.Renderer "D3D11" = false →
      Config.setup w c h =
        (.ret ({ c1 with Player := p, Studio := { c1.Studio with FFlags := flags } },
            some (Errorf "studio: " ErrNeedDXVKRenderer)),
          h2 ++ [⟨.SetRenderer c1.Studio.FFlags c1.Studio.Renderer, .flags flags none⟩])) ∧
    (Errorf "player: " ErrNeedDXVKRenderer).message =
      "player: dxvk is only valid with d3d renderers" ∧
    (Errorf "studio: " ErrNeedDXVKRenderer).message =
      "studio: dxvk is only valid with d3d renderers" := by
  have hreject : ∀ b h flags, w.SetRenderer b.FFlags b.Renderer = (flags, none) →
      b.Dxvk = true → HasPrefix b.Renderer "D3D11" = false →
      Binary.setup w b h = (.ret ({ b with FFlags := flags }, some ErrNeedDXVKRenderer),
        h ++ [⟨.SetRenderer b.FFlags b.Renderer, .flags flags none⟩]) := by
    intro b h flags hf hd hp
    simp [Binary.setup, run_bind, run_call, run_pure, hf, hd, hp]
  refine ⟨hreject, ?_, ?_, ?_, by decide, by decide⟩
  · intro b h flags hf hok
    have hgo : Binary.setup w b h = Binary.finish w { b with FFlags := flags }
        (h ++ [⟨.SetRenderer b.FFlags b.Renderer, .flags flags none⟩]) := by
      rcases hok with hd | hp
      · simp [Binary.setup, run_bind, run_call, hf, hd]
      · simp [Binary.setup, run_bind, run_call, hf, hp]
    refine ⟨hgo, ?_⟩
    intro hl
    rw [hgo]
    simp [Binary.finish, run_bind, run_call, run_pure, hl]
  · intro c h c1 h1 flags hprep hf hd hp
    simp [Config.setup, run_bind, run_pure, hprep, hreject _ h1 flags hf hd hp]
  · intro c h c1 h1 p h2 flags hprep hplayer hf hd hp
    simp [Config.setup, run_bind, run_pure, hprep, hplayer, hreject _ h2 flags hf hd hp]

/-- Witness of claim C7: a player configuration with DXVK enabled and the
`Vulkan` renderer is rejected right after `SetRenderer`. -/
theorem DXVK_needs_D3D11_renderer_witness :
    Binary.setup vulkanWorld { (Default vulkanWorld).Player with Renderer := "Vulkan" } [] =
      (.ret ({ (Default vulkanWorld).Player with
            Renderer := "Vulkan"
            FFlags := [("DFIntTaskSchedulerTargetFps", .int 640),
              ("FFlagDebugGraphicsPreferVulkan", .bool true)] },
          some ErrNeedDXVKRenderer),
        [] ++ [⟨.SetRenderer [("DFIntTaskSchedulerTargetFps", .int 640)] "Vulkan",
          .flags [("DFIntTaskSchedulerTargetFps", .int 640),
            ("FFlagDebugGraphicsPreferVulkan", .bool true)] none⟩]) :=
  (DXVK_needs_D3D11_renderer vulkanWorld).1
    { (Default vulkanWorld).Player with Renderer := "Vulkan" } []
    [("DFIntTaskSchedulerTargetFps", .int 640), ("FFlagDebugGraphicsPreferVulkan", .bool true)]
    (by decide) rfl (by decide)

end Cfg
